import Mathlib

/-!
# EIP-93 crypto engine driver core (`crypto/mtk-eip93/eip93-main.c`)

A shallow embedding of the interrupt front end, the result-ring drain, the
ring set-up and the device bring-up / tear-down of `eip93-main.c`, and the
properties of these functions.

Conventions of the embedding.

* A function that talks to the device yields the list of the things it did,
  in program order (`Event`): register reads and writes, calls of
  `mtk_get_descriptor`, log lines, calls of the completion handlers, tasklet
  operations.
* What the device answers is an input: the values successive `readl`s of a
  register return, and what successive calls of `mtk_get_descriptor` return.
* The headers `eip93-main.h`, `eip93-regs.h` and the Kconfig switches are not
  part of the sources.  Their constants are the fields of `Config`; registers
  are named by their macro; a bit-field union written to a register is kept as
  the record of the fields the code assigns.
-/

namespace Eip93

/-! ## Constants, registers, events -/

/-- Constants of the absent headers and the Kconfig switches tested with
`IS_ENABLED`; every definition below takes them as a parameter. -/
structure Config where
  EIP93_INT_PE_RDRTHRESH_REQ : Nat
  MTK_DESC_LAST : Nat
  MTK_DESC_SKCIPHER : Nat
  MTK_DESC_AEAD : Nat
  MTK_RING_SIZE : Nat
  MTK_RING_BUSY : Nat
  sizeof_eip93_descriptor_s : Nat
  sizeof_saState_s : Nat
  CONFIG_CRYPTO_DEV_EIP93_SKCIPHER : Bool
  CONFIG_CRYPTO_DEV_EIP93_AEAD : Bool
  CONFIG_CRYPTO_DEV_EIP93_DES : Bool
  CONFIG_CRYPTO_DEV_EIP93_AES : Bool
  CONFIG_CRYPTO_DEV_EIP93_HMAC : Bool
  deriving DecidableEq, Repr

/-- Linux errno values used by the file. -/
def ENOMEM : Int := 12

/-- Linux errno `EIO`. -/
def EIO : Int := 5

/-- Linux errno `EINVAL`. -/
def EINVAL : Int := 22

/-- Linux `GENMASK(h, l)`: bits `l..h` set. -/
def GENMASK (h l : Nat) : Nat := (2 ^ (h + 1 - l) - 1) * 2 ^ l

/-- The device registers the file accesses, by macro name. -/
inductive Reg
  | EIP93_REG_PE_CONFIG
  | EIP93_REG_PE_ENDIAN_CONFIG
  | EIP93_REG_INT_CFG
  | EIP93_REG_PE_CLOCK_CTRL
  | EIP93_REG_PE_BUF_THRESH
  | EIP93_REG_PE_RING_THRESH
  | EIP93_REG_PE_CDR_BASE
  | EIP93_REG_PE_RDR_BASE
  | EIP93_REG_PE_RING_CONFIG
  | EIP93_REG_PE_RD_COUNT
  | EIP93_REG_INT_MASK_STAT
  | EIP93_REG_INT_CLR
  | EIP93_REG_MASK_ENABLE
  | EIP93_REG_MASK_DISABLE
  deriving DecidableEq, Repr

/-- A 32-bit value handed to `writel`: a plain word, or one of the bit-field
unions of `eip93-regs.h` as the record of the fields the code assigns (all
other fields are zero, the unions being cleared through `.word = 0` first). -/
inductive Word
  | raw (w : Nat)
  | peConfig (resetPE resetRing peMode enCDRupdate : Nat)
  | peClockCfg (enPEclk enDESclk enAESclk enHASHclk : Nat)
  | peBufThresh (inputBuffer outputBuffer : Nat)
  | peRingThresh (CDRThresh : Int) (RDRThresh RDTimeout enTimeout : Nat)
  | peRingCfg (ringSize ringOffset : Nat)
  deriving DecidableEq, Repr

/-- A result descriptor as the drain sees it.  `peReady` lists what the
successive `READ_ONCE` pairs of the wait loop observe: the ready bit of
`peCrtlStat` and the ready bit of `peLength`; the last observation stays.
The other fields are the ones read once the loop is left. -/
structure eip93_descriptor_s where
  peReady : List (Bool × Bool)
  errStatus : Nat
  userId : Nat
  arc4Addr : Nat
  deriving DecidableEq, Repr

/-- One observable step of the driver. -/
inductive Event
  | readl (r : Reg) (v : Nat)
  | writel (v : Word) (r : Reg)
  | mtk_get_descriptor (rdesc : Option eip93_descriptor_s)
  | dev_err (handled ready : Nat)
  | mtk_skcipher_handle_result (async : Nat) (err : Int)
  | mtk_aead_handle_result (async : Nat) (err : Int)
  | tasklet_schedule
  | tasklet_kill
  | tasklet_init
  | udelay (usecs : Nat)
  | crypto_register (i : Nat)
  | crypto_unregister (j : Nat)
  deriving DecidableEq, Repr

/-- Lines 69-72. -/
def mtk_irq_disable (mask : Nat) : List Event :=
  [Event.writel (Word.raw mask) Reg.EIP93_REG_MASK_DISABLE]

/-- Lines 74-77. -/
def mtk_irq_enable (mask : Nat) : List Event :=
  [Event.writel (Word.raw mask) Reg.EIP93_REG_MASK_ENABLE]

/-- Lines 79-82. -/
def mtk_irq_clear (mask : Nat) : List Event :=
  [Event.writel (Word.raw mask) Reg.EIP93_REG_INT_CLR]

/-! ## The result ring drain (lines 140-205) -/

/-- The part of `mtk->ring` the drain touches: `rdr` lists what the coming
calls of `mtk_get_descriptor` find at the read cursor of the result ring
(`none`: no descriptor available at that call; past the end of the list the
ring stays empty), `free` is the atomic free-slot counter. -/
structure ResultRing where
  rdr : List (Option eip93_descriptor_s)
  free : Nat
  deriving DecidableEq, Repr

/-- Modelled from the spec: `mtk_get_descriptor` is defined in
`eip93-common.c`, which is not among the sources.  Per the spec it returns the
slot at the read cursor and advances the cursor, or reports that no descriptor
is available; reclaiming a descriptor increments the ring's free counter once
(`release()`), and nothing in `mtk_handle_result_descriptor` itself does. -/
def mtk_get_descriptor (ring : ResultRing) : Option eip93_descriptor_s × ResultRing :=
  match ring.rdr with
  | [] => (none, ring)
  | none :: rest => (none, { ring with rdr := rest })
  | some rdesc :: rest => (some rdesc, { rdr := rest, free := ring.free + 1 })

/-- Lines 172-175: the wait loop is left exactly when some observation has both
ready bits set. -/
def dma_finished (rdesc : eip93_descriptor_s) : Bool :=
  rdesc.peReady.any (fun done => done.1 && done.2)

/-- The locals `flags`, `async` and `err`, which live across `goto get_more`. -/
structure Locals where
  flags : Nat
  async : Nat
  err : Int
  deriving DecidableEq, Repr

/-- How the `while (ready)` loop of lines 163-192 ended. -/
structure Pass where
  events : List Event
  last_entry : Bool
  spinning : Bool
  locals : Locals
  ring : ResultRing
  deriving DecidableEq, Repr

/-- Lines 163-192, one call per test of `while (ready)`.  `spinning` is set
when the wait loop of lines 172-175 never sees both ready bits. -/
def while_ready (cfg : Config) : Nat → Nat → Locals → ResultRing → Pass
  | 0, _, l, ring => ⟨[], false, false, l, ring⟩
  | ready + 1, handled, l, ring =>
    match mtk_get_descriptor ring with
    | (none, ring1) =>
      ⟨[Event.mtk_get_descriptor none, Event.dev_err handled (ready + 1)],
        false, false, { l with err := - EIO }, ring1⟩
    | (some rdesc, ring1) =>
      if dma_finished rdesc then
        let l1 : Locals := ⟨rdesc.userId, rdesc.arc4Addr, rdesc.errStatus⟩
        let evs := Event.mtk_get_descriptor (some rdesc)
          :: Event.writel (Word.raw 1) Reg.EIP93_REG_PE_RD_COUNT
          :: mtk_irq_clear cfg.EIP93_INT_PE_RDRTHRESH_REQ
        if rdesc.userId &&& cfg.MTK_DESC_LAST ≠ 0 then
          ⟨evs, true, false, l1, ring1⟩
        else
          let p := while_ready cfg ready (handled + 1) l1 ring1
          { p with events := evs ++ p.events }
      else
        ⟨[Event.mtk_get_descriptor (some rdesc)], false, true, l, ring1⟩

/-- Lines 196-203: the completion handlers called for a finished request. -/
def dispatch (cfg : Config) (l : Locals) : List Event :=
  (if cfg.CONFIG_CRYPTO_DEV_EIP93_SKCIPHER = true ∧ l.flags &&& cfg.MTK_DESC_SKCIPHER ≠ 0 then
    [Event.mtk_skcipher_handle_result l.async l.err] else [])
  ++ (if cfg.CONFIG_CRYPTO_DEV_EIP93_AEAD = true ∧ l.flags &&& cfg.MTK_DESC_AEAD ≠ 0 then
    [Event.mtk_aead_handle_result l.async l.err] else [])

/-- How far a run of the drain got: it returned, it is stuck in the wait loop
of lines 172-175, or it is still running when the listed register reads are
used up. -/
inductive Exit
  | returned
  | spinning
  | running
  deriving DecidableEq, Repr

/-- A run of the drain: what it did, how it ended, the ring afterwards. -/
structure Run where
  events : List Event
  exit : Exit
  ring : ResultRing
  deriving DecidableEq, Repr

/-- Put `evs` in front of a run. -/
def Run.after (evs : List Event) (r : Run) : Run :=
  { r with events := evs ++ r.events }

/-- Lines 140-205.  `reads` lists the values the successive
`readl(EIP93_REG_PE_RD_COUNT)` return, one per arrival at `get_more`; the
locals are uninitialised on entry, so the caller of the model picks them. -/
def mtk_handle_result_descriptor (cfg : Config) : Locals → List Nat → ResultRing → Run
  | _, [], ring => ⟨[], Exit.running, ring⟩
  | l, v :: reads, ring =>
    let ready := v &&& GENMASK 10 0
    if ready = 0 then
      ⟨Event.readl Reg.EIP93_REG_PE_RD_COUNT v
          :: (mtk_irq_clear cfg.EIP93_INT_PE_RDRTHRESH_REQ
            ++ mtk_irq_enable cfg.EIP93_INT_PE_RDRTHRESH_REQ),
        Exit.returned, ring⟩
    else
      let p := while_ready cfg ready 0 l ring
      if p.spinning then
        ⟨Event.readl Reg.EIP93_REG_PE_RD_COUNT v :: p.events, Exit.spinning, p.ring⟩
      else if p.last_entry then
        Run.after (Event.readl Reg.EIP93_REG_PE_RD_COUNT v :: (p.events ++ dispatch cfg p.locals))
          (mtk_handle_result_descriptor cfg p.locals reads p.ring)
      else
        Run.after (Event.readl Reg.EIP93_REG_PE_RD_COUNT v :: p.events)
          (mtk_handle_result_descriptor cfg p.locals reads p.ring)

/-- Lines 207-212. -/
def mtk_done_task (cfg : Config) (l : Locals) (reads : List Nat) (ring : ResultRing) : Run :=
  mtk_handle_result_descriptor cfg l reads ring

/-- Whether an event is a call of one of the two completion handlers. -/
def Event.isCompletion : Event → Bool
  | Event.mtk_skcipher_handle_result _ _ => true
  | Event.mtk_aead_handle_result _ _ => true
  | _ => false

/-- Whether an event is a call of `mtk_get_descriptor` that handed out a descriptor. -/
def Event.isFetch : Event → Bool
  | Event.mtk_get_descriptor (some _) => true
  | _ => false

/-- The calls of the completion handlers among `evs`, in order. -/
def completions (evs : List Event) : List Event :=
  evs.filter Event.isCompletion

/-- The number of descriptors `mtk_get_descriptor` handed out among `evs`. -/
def fetched (evs : List Event) : Nat :=
  evs.countP Event.isFetch

/-- The number of acknowledgements `writel(1, EIP93_REG_PE_RD_COUNT)` among `evs`. -/
def acknowledged (evs : List Event) : Nat :=
  evs.count (Event.writel (Word.raw 1) Reg.EIP93_REG_PE_RD_COUNT)

/-- Lines 164-186 for one descriptor that is fetched and found ready: the
fetch, the acknowledgement and the clearing of the threshold cause. -/
def reclaim (cfg : Config) (rdesc : eip93_descriptor_s) : List Event :=
  Event.mtk_get_descriptor (some rdesc)
    :: Event.writel (Word.raw 1) Reg.EIP93_REG_PE_RD_COUNT
    :: mtk_irq_clear cfg.EIP93_INT_PE_RDRTHRESH_REQ

/-- The events of reclaiming the descriptors `ds` one after the other. -/
def drained (cfg : Config) : List eip93_descriptor_s → List Event
  | [] => []
  | d :: ds => reclaim cfg d ++ drained cfg ds

/-- A request in the result ring: the descriptors `d0..d(n-1)` and the
terminal descriptor `dn`. -/
structure Request where
  body : List eip93_descriptor_s
  last : eip93_descriptor_s
  deriving DecidableEq, Repr

/-- The descriptors of a request in ring order. -/
def Request.descriptors (q : Request) : List eip93_descriptor_s :=
  q.body ++ [q.last]

/-- The request is complete in the ring: every descriptor gets both ready
bits, and `MTK_DESC_LAST` is set in the tag of the terminal descriptor only. -/
def Request.complete (cfg : Config) (q : Request) : Prop :=
  (∀ d ∈ q.descriptors, dma_finished d = true)
    ∧ (∀ d ∈ q.body, d.userId &&& cfg.MTK_DESC_LAST = 0)
    ∧ q.last.userId &&& cfg.MTK_DESC_LAST ≠ 0

instance (cfg : Config) (q : Request) : Decidable (q.complete cfg) := by
  unfold Request.complete; infer_instance

/-- The two request kinds the drain dispatches on. -/
inductive Kind
  | skcipher
  | aead
  deriving DecidableEq, Repr

/-- The tag of the request's terminal descriptor carries kind `k` and not the
other kind, and the driver is built with the handler of `k`. -/
def Request.hasKind (cfg : Config) (q : Request) : Kind → Prop
  | Kind.skcipher =>
    cfg.CONFIG_CRYPTO_DEV_EIP93_SKCIPHER = true
      ∧ q.last.userId &&& cfg.MTK_DESC_SKCIPHER ≠ 0
      ∧ q.last.userId &&& cfg.MTK_DESC_AEAD = 0
  | Kind.aead =>
    cfg.CONFIG_CRYPTO_DEV_EIP93_AEAD = true
      ∧ q.last.userId &&& cfg.MTK_DESC_AEAD ≠ 0
      ∧ q.last.userId &&& cfg.MTK_DESC_SKCIPHER = 0

instance (cfg : Config) (q : Request) (k : Kind) : Decidable (q.hasKind cfg k) := by
  cases k <;> (unfold Request.hasKind; infer_instance)

/-- The call of the handler of kind `k` with the back-reference and the error
status of the request's terminal descriptor. -/
def completion (k : Kind) (q : Request) : Event :=
  match k with
  | Kind.skcipher => Event.mtk_skcipher_handle_result q.last.arc4Addr q.last.errStatus
  | Kind.aead => Event.mtk_aead_handle_result q.last.arc4Addr q.last.errStatus

/-- A request together with the value `readl(EIP93_REG_PE_RD_COUNT)` returns on
the arrival at `get_more` that precedes it, and its kind. -/
structure Served where
  count : Nat
  request : Request
  kind : Kind
  deriving DecidableEq, Repr

/-- The hardware count read before the request covers all its descriptors. -/
def Served.covered (cfg : Config) (s : Served) : Prop :=
  s.request.complete cfg ∧ s.request.hasKind cfg s.kind
    ∧ s.request.body.length + 1 ≤ s.count &&& GENMASK 10 0

instance (cfg : Config) (s : Served) : Decidable (s.covered cfg) := by
  unfold Served.covered; infer_instance

/-- One pass of the drain over a covered request: the count is read, the
descriptors are reclaimed in ring order, the handler is called. -/
def Served.events (cfg : Config) (s : Served) : List Event :=
  Event.readl Reg.EIP93_REG_PE_RD_COUNT s.count
    :: (drained cfg s.request.descriptors ++ [completion s.kind s.request])

/-- The passes over the requests `ss`, one after the other. -/
def servedEvents (cfg : Config) : List Served → List Event
  | [] => []
  | s :: ss => s.events cfg ++ servedEvents cfg ss

/-- The ring slots of the requests `ss`, back to back. -/
def servedSlots : List Served → List (Option eip93_descriptor_s)
  | [] => []
  | s :: ss => s.request.descriptors.map some ++ servedSlots ss

/-- The number of descriptors of the requests `ss`. -/
def servedCount : List Served → Nat
  | [] => 0
  | s :: ss => (s.request.body.length + 1) + servedCount ss

/-! ## The interrupt handler (lines 214-232) -/

/-- Linux `irqreturn_t`, the two values the handler returns. -/
inductive irqreturn_t
  | IRQ_NONE
  | IRQ_HANDLED
  deriving DecidableEq, Repr

/-- Lines 214-232; `irq_status` is the value `readl(EIP93_REG_INT_MASK_STAT)`
returns. -/
def mtk_irq_handler (cfg : Config) (irq_status : Nat) : List Event × irqreturn_t :=
  if irq_status &&& cfg.EIP93_INT_PE_RDRTHRESH_REQ ≠ 0 then
    (Event.readl Reg.EIP93_REG_INT_MASK_STAT irq_status
        :: (mtk_irq_disable cfg.EIP93_INT_PE_RDRTHRESH_REQ ++ [Event.tasklet_schedule]),
      irqreturn_t.IRQ_HANDLED)
  else
    (Event.readl Reg.EIP93_REG_INT_MASK_STAT irq_status
        :: (mtk_irq_clear irq_status
          ++ (if irq_status ≠ 0 then mtk_irq_disable irq_status else [])),
      irqreturn_t.IRQ_NONE)

/-- The register writes among `evs`, in order. -/
def writes : List Event → List (Word × Reg)
  | [] => []
  | Event.writel v r :: evs => (v, r) :: writes evs
  | _ :: evs => writes evs

/-! ## Bring-up and tear-down (lines 234-307, 375-386) -/

/-- Lines 234-300. -/
def mtk_initialize (cfg : Config) : List Event :=
  [Event.writel (Word.peConfig 1 1 3 1) Reg.EIP93_REG_PE_CONFIG,
    Event.udelay 10,
    Event.writel (Word.peConfig 0 0 3 1) Reg.EIP93_REG_PE_CONFIG,
    Event.writel (Word.raw 0) Reg.EIP93_REG_PE_ENDIAN_CONFIG,
    Event.writel (Word.raw 0) Reg.EIP93_REG_INT_CFG,
    Event.writel
      (Word.peClockCfg 1
        (if cfg.CONFIG_CRYPTO_DEV_EIP93_DES then 1 else 0)
        (if cfg.CONFIG_CRYPTO_DEV_EIP93_AES then 1 else 0)
        (if cfg.CONFIG_CRYPTO_DEV_EIP93_HMAC then 1 else 0))
      Reg.EIP93_REG_PE_CLOCK_CTRL,
    Event.writel (Word.peBufThresh 128 128) Reg.EIP93_REG_PE_BUF_THRESH]
  ++ mtk_irq_clear 0xFFFFFFFF
  ++ mtk_irq_disable 0xFFFFFFFF
  ++ [Event.writel
      (Word.peRingThresh ((cfg.MTK_RING_SIZE : Int) - (cfg.MTK_RING_BUSY : Int)) 0 5 1)
      Reg.EIP93_REG_PE_RING_THRESH]

/-- Lines 302-307. -/
def mtk_desc_free : List Event :=
  [Event.writel (Word.raw 0) Reg.EIP93_REG_PE_RING_CONFIG,
    Event.writel (Word.raw 0) Reg.EIP93_REG_PE_CDR_BASE,
    Event.writel (Word.raw 0) Reg.EIP93_REG_PE_RDR_BASE]

/-- Lines 375-386. -/
def mtk_cleanup : List Event :=
  Event.tasklet_kill
    :: (mtk_irq_clear 0xFFFFFFFF
      ++ mtk_irq_disable 0xFFFFFFFF
      ++ [Event.writel (Word.raw 0) Reg.EIP93_REG_PE_CLOCK_CTRL]
      ++ mtk_desc_free)

/-- The device as the driver's writes leave it: the value last written to each
register, and whether the done tasklet is scheduled. -/
structure Device where
  regs : Reg → Word
  done_task_scheduled : Bool

/-- The effect of one event on the device. -/
def Device.step (dev : Device) : Event → Device
  | Event.writel v r => { dev with regs := Function.update dev.regs r v }
  | Event.tasklet_schedule => { dev with done_task_scheduled := true }
  | Event.tasklet_kill => { dev with done_task_scheduled := false }
  | _ => dev

/-- The device after the events `evs`. -/
def Device.run (dev : Device) (evs : List Event) : Device :=
  evs.foldl Device.step dev

/-! ## Ring set-up (lines 309-373) -/

/-- The fields of `struct mtk_desc_ring`; pointers are addresses, `NULL` is 0. -/
structure mtk_desc_ring where
  offset : Nat
  base : Nat
  base_dma : Nat
  write : Nat
  base_end : Nat
  read : Nat
  deriving DecidableEq, Repr

/-- The fields of `struct mtk_state_pool`. -/
structure mtk_state_pool where
  base : Nat
  base_dma : Nat
  in_use : Bool
  deriving DecidableEq, Repr

/-- The fields of `struct mtk_ring` that the set-up touches.  `saState_pool` is
the pointer, `pool` the array it points to (meaningful when the pointer is not
`NULL`).  `saState` is a byte pointer, as line 367 adds a byte offset to it. -/
structure mtk_ring where
  cdr : mtk_desc_ring
  rdr : mtk_desc_ring
  free : Nat
  saState : Nat
  saState_dma : Nat
  saState_pool : Nat
  pool : List mtk_state_pool
  deriving DecidableEq, Repr

/-- What the allocators answer during the set-up: for each
`dmam_alloc_coherent` the address (0 on failure) and the DMA handle, for
`devm_kcalloc` the address (0 on failure). -/
structure Allocations where
  cdr : Nat × Nat
  rdr : Nat × Nat
  saState : Nat × Nat
  saState_pool : Nat
  deriving DecidableEq, Repr

/-- How a function ended: it returned `err`, or it wrote through a `NULL`
pointer. -/
inductive Outcome
  | returns (err : Int)
  | null_dereference
  deriving DecidableEq, Repr

/-- Lines 309-323; `alloc` is what `dmam_alloc_coherent` answers. -/
def mtk_set_ring (cfg : Config) (alloc : Nat × Nat) (ring : mtk_desc_ring) (Offset : Nat) :
    Int × mtk_desc_ring :=
  let ring1 := { ring with offset := Offset, base := alloc.1, base_dma := alloc.2 }
  if ring1.base = 0 then
    (- ENOMEM, ring1)
  else
    (0, { ring1 with
      write := ring1.base
      base_end := ring1.base + Offset * (cfg.MTK_RING_SIZE - 1)
      read := ring1.base })

/-- Lines 365-370: the loop over the state pool, `n` iterations from index `i`.
Every iteration writes through `saState_pool`. -/
def state_pool_loop (RingOffset : Nat) : Nat → Nat → mtk_ring → Option mtk_ring
  | 0, _, ring => some ring
  | n + 1, i, ring =>
    if ring.saState_pool = 0 then
      none
    else
      state_pool_loop RingOffset n (i + 1)
        { ring with
          pool := ring.pool.set i
            (mtk_state_pool.mk (ring.saState + i * RingOffset)
              (ring.saState_dma + i * RingOffset) false) }

/-- What `mtk_desc_init` leaves behind. -/
structure DescInit where
  outcome : Outcome
  ring : mtk_ring
  events : List Event
  deriving DecidableEq, Repr

/-- Lines 325-373. -/
def mtk_desc_init (cfg : Config) (a : Allocations) (ring : mtk_ring) : DescInit :=
  let RingOffset := cfg.sizeof_eip93_descriptor_s
  let c := mtk_set_ring cfg a.cdr ring.cdr RingOffset
  if c.1 ≠ 0 then
    ⟨Outcome.returns c.1, { ring with cdr := c.2 }, []⟩
  else
    let r := mtk_set_ring cfg a.rdr ring.rdr RingOffset
    if r.1 ≠ 0 then
      ⟨Outcome.returns r.1, { ring with cdr := c.2, rdr := r.2 }, []⟩
    else
      let evs :=
        [Event.writel (Word.raw (c.2.base_dma % 2 ^ 32)) Reg.EIP93_REG_PE_CDR_BASE,
          Event.writel (Word.raw (r.2.base_dma % 2 ^ 32)) Reg.EIP93_REG_PE_RDR_BASE,
          Event.writel (Word.peRingCfg (cfg.MTK_RING_SIZE - 1) (RingOffset / 4))
            Reg.EIP93_REG_PE_RING_CONFIG]
      let ring1 : mtk_ring :=
        { ring with
          cdr := c.2
          rdr := r.2
          free := cfg.MTK_RING_SIZE - 1
          saState := a.saState.1
          saState_dma := a.saState.2 }
      if ring1.saState = 0 then
        ⟨Outcome.returns (- ENOMEM), ring1, evs⟩
      else
        let ring2 : mtk_ring :=
          { ring1 with
            saState_pool := a.saState_pool
            pool := if a.saState_pool = 0 then []
              else List.replicate cfg.MTK_RING_SIZE ⟨0, 0, false⟩ }
        match state_pool_loop cfg.sizeof_saState_s cfg.MTK_RING_SIZE 0 ring2 with
        | none => ⟨Outcome.null_dereference, ring2, evs⟩
        | some ring3 => ⟨Outcome.returns 0, ring3, evs⟩

/-! ## Algorithm registration and probe (lines 84-138, 388-445) -/

/-- The `type` of an entry of `mtk_algs`. -/
inductive mtk_alg_type
  | MTK_ALG_TYPE_SKCIPHER
  | MTK_ALG_TYPE_AEAD
  | MTK_ALG_TYPE_OTHER
  deriving DecidableEq, Repr

/-- An entry of `mtk_algs`: its type, and what `crypto_register_skcipher` or
`crypto_register_aead` answers for it. -/
structure mtk_alg_template where
  type : mtk_alg_type
  register_err : Int
  deriving DecidableEq, Repr

/-- Lines 89-102: one iteration of the loop of `mtk_unregister_algs`. -/
def unregister_one (cfg : Config) (j : Nat) (alg : mtk_alg_template) : List Event :=
  match alg.type with
  | mtk_alg_type.MTK_ALG_TYPE_SKCIPHER =>
    if cfg.CONFIG_CRYPTO_DEV_EIP93_SKCIPHER then [Event.crypto_unregister j] else []
  | mtk_alg_type.MTK_ALG_TYPE_AEAD =>
    if cfg.CONFIG_CRYPTO_DEV_EIP93_AEAD then [Event.crypto_unregister j] else []
  | mtk_alg_type.MTK_ALG_TYPE_OTHER => []

/-- Lines 84-104, from index `j` over the entries `algs` that lie below `i`. -/
def unregister_from (cfg : Config) : Nat → List mtk_alg_template → List Event
  | _, [] => []
  | j, alg :: algs => unregister_one cfg j alg ++ unregister_from cfg (j + 1) algs

/-- Lines 84-104. -/
def mtk_unregister_algs (cfg : Config) (mtk_algs : List mtk_alg_template) (i : Nat) :
    List Event :=
  unregister_from cfg 0 (mtk_algs.take i)

/-- Lines 111-137: the loop of `mtk_register_algs` from index `i` over the
entries `algs` still to register. -/
def register_from (cfg : Config) (mtk_algs : List mtk_alg_template) :
    Nat → List mtk_alg_template → Int × List Event
  | _, [] => (0, [])
  | i, alg :: algs =>
    let registers : Bool :=
      match alg.type with
      | mtk_alg_type.MTK_ALG_TYPE_SKCIPHER => cfg.CONFIG_CRYPTO_DEV_EIP93_SKCIPHER
      | mtk_alg_type.MTK_ALG_TYPE_AEAD => cfg.CONFIG_CRYPTO_DEV_EIP93_AEAD
      | mtk_alg_type.MTK_ALG_TYPE_OTHER => false
    if registers then
      if alg.register_err ≠ 0 then
        (alg.register_err, Event.crypto_register i :: mtk_unregister_algs cfg mtk_algs i)
      else
        let rest := register_from cfg mtk_algs (i + 1) algs
        (rest.1, Event.crypto_register i :: rest.2)
    else
      (- EINVAL, [])

/-- Lines 106-138. -/
def mtk_register_algs (cfg : Config) (mtk_algs : List mtk_alg_template) : Int × List Event :=
  register_from cfg mtk_algs 0 mtk_algs

/-- Linux `IS_ERR`: a pointer, read as a signed number, lies in the last 4095
addresses. -/
def IS_ERR (ptr : Int) : Bool :=
  decide (-4095 ≤ ptr ∧ ptr < 0)

/-- What the platform answers during probe: the two `devm` allocations (address
or 0), `devm_ioremap_resource` (the pointer read as a signed number, so that an
`ERR_PTR` is its negative errno), `platform_get_irq`,
`devm_request_threaded_irq`, the allocations of the ring set-up and the table
`mtk_algs`. -/
structure Platform where
  devm_kzalloc_mtk : Nat
  devm_ioremap_resource : Int
  platform_get_irq : Int
  devm_request_threaded_irq : Int
  devm_kcalloc_ring : Nat
  allocations : Allocations
  mtk_algs : List mtk_alg_template

/-- How probe ended and what it did to the device. -/
structure Probe where
  outcome : Outcome
  events : List Event
  deriving DecidableEq, Repr

/-- The ring structure as `devm_kcalloc` hands it out: zeroed. -/
def zeroed_ring : mtk_ring :=
  ⟨⟨0, 0, 0, 0, 0, 0⟩, ⟨0, 0, 0, 0, 0, 0⟩, 0, 0, 0, 0, []⟩

/-- Lines 388-445.  The value of `devm_request_threaded_irq` is stored in `err`
and overwritten before it is looked at. -/
def mtk_crypto_probe (cfg : Config) (pf : Platform) : Probe :=
  if pf.devm_kzalloc_mtk = 0 then
    ⟨Outcome.returns (- ENOMEM), []⟩
  else if IS_ERR pf.devm_ioremap_resource then
    ⟨Outcome.returns pf.devm_ioremap_resource, []⟩
  else if pf.platform_get_irq < 0 then
    ⟨Outcome.returns pf.platform_get_irq, []⟩
  else if pf.devm_kcalloc_ring = 0 then
    ⟨Outcome.returns (- ENOMEM), []⟩
  else
    let d := mtk_desc_init cfg pf.allocations zeroed_ring
    match d.outcome with
    | Outcome.null_dereference => ⟨Outcome.null_dereference, d.events⟩
    | Outcome.returns err =>
      if err ≠ 0 then
        ⟨Outcome.returns err, d.events⟩
      else
        let evs := d.events ++ [Event.tasklet_init] ++ mtk_initialize cfg
          ++ mtk_irq_enable cfg.EIP93_INT_PE_RDRTHRESH_REQ
        let reg := mtk_register_algs cfg pf.mtk_algs
        if reg.1 ≠ 0 then
          ⟨Outcome.returns reg.1, evs ++ reg.2 ++ mtk_cleanup⟩
        else
          ⟨Outcome.returns 0, evs ++ reg.2⟩

/-- The four stages of bring-up. -/
inductive Stage
  | RESET
  | CONFIGURE
  | RING_REGISTER
  | READY
  deriving DecidableEq, Repr

/-- The stage a register write belongs to: the reset pulse is written to
`PE_CONFIG`; the ring registration writes the two ring bases and
`PE_RING_CONFIG`; the mask-enable write makes the device ready; the other
writes of bring-up configure the engine. -/
def Stage.of : Reg → Option Stage
  | Reg.EIP93_REG_PE_CONFIG => some Stage.RESET
  | Reg.EIP93_REG_PE_ENDIAN_CONFIG => some Stage.CONFIGURE
  | Reg.EIP93_REG_INT_CFG => some Stage.CONFIGURE
  | Reg.EIP93_REG_PE_CLOCK_CTRL => some Stage.CONFIGURE
  | Reg.EIP93_REG_PE_BUF_THRESH => some Stage.CONFIGURE
  | Reg.EIP93_REG_INT_CLR => some Stage.CONFIGURE
  | Reg.EIP93_REG_MASK_DISABLE => some Stage.CONFIGURE
  | Reg.EIP93_REG_PE_RING_THRESH => some Stage.CONFIGURE
  | Reg.EIP93_REG_PE_CDR_BASE => some Stage.RING_REGISTER
  | Reg.EIP93_REG_PE_RDR_BASE => some Stage.RING_REGISTER
  | Reg.EIP93_REG_PE_RING_CONFIG => some Stage.RING_REGISTER
  | Reg.EIP93_REG_MASK_ENABLE => some Stage.READY
  | Reg.EIP93_REG_PE_RD_COUNT => none
  | Reg.EIP93_REG_INT_MASK_STAT => none

/-- The stages of the register writes among `evs`, in order. -/
def stages (evs : List Event) : List Stage :=
  (writes evs).filterMap (fun w => Stage.of w.2)

/-- The place of a stage in the order RESET, CONFIGURE, RING-REGISTER, READY. -/
def Stage.stated : Stage → Nat
  | Stage.RESET => 0
  | Stage.CONFIGURE => 1
  | Stage.RING_REGISTER => 2
  | Stage.READY => 3

/-- The place of a stage in the order RING-REGISTER, RESET, CONFIGURE, READY. -/
def Stage.coded : Stage → Nat
  | Stage.RING_REGISTER => 0
  | Stage.RESET => 1
  | Stage.CONFIGURE => 2
  | Stage.READY => 3

/-- A ring slot does not make the wait loop spin: it is empty, or its
descriptor gets both ready bits. -/
def slot_ready : Option eip93_descriptor_s → Bool
  | none => true
  | some rdesc => dma_finished rdesc

/-! ## Test values -/

/-- A configuration for the examples: the threshold cause is bit 1, the tag
bits are 25 (last), 30 (skcipher) and 29 (AEAD), the ring has 512 slots of 32
bytes with a busy watermark of 32, every algorithm class is built. -/
def cfg0 : Config :=
  { EIP93_INT_PE_RDRTHRESH_REQ := 2
    MTK_DESC_LAST := 2 ^ 25
    MTK_DESC_SKCIPHER := 2 ^ 30
    MTK_DESC_AEAD := 2 ^ 29
    MTK_RING_SIZE := 512
    MTK_RING_BUSY := 32
    sizeof_eip93_descriptor_s := 32
    sizeof_saState_s := 40
    CONFIG_CRYPTO_DEV_EIP93_SKCIPHER := true
    CONFIG_CRYPTO_DEV_EIP93_AEAD := true
    CONFIG_CRYPTO_DEV_EIP93_DES := true
    CONFIG_CRYPTO_DEV_EIP93_AES := true
    CONFIG_CRYPTO_DEV_EIP93_HMAC := true }

/-- Arbitrary initial values of the uninitialised locals. -/
def l0 : Locals := ⟨0, 0, 0⟩

/-- A ready descriptor with error status `e`, tag `tag` and back-reference `a`. -/
def ready_desc (e tag a : Nat) : eip93_descriptor_s :=
  ⟨[(true, true)], e, tag, a⟩

/-- A two-descriptor skcipher request: the first descriptor carries error
status 9, the terminal one error status 0. -/
def request_a : Request :=
  ⟨[ready_desc 9 (2 ^ 30) 0x1000], ready_desc 0 (2 ^ 30 + 2 ^ 25) 0x1000⟩

/-- A one-descriptor AEAD request with error status 3. -/
def request_b : Request :=
  ⟨[], ready_desc 3 (2 ^ 29 + 2 ^ 25) 0x2000⟩

/-- A ring that supplies one descriptor, then reports that none is available,
then supplies the one-descriptor request `request_b`. -/
def ring_gap : ResultRing :=
  ⟨[some (ready_desc 0 (2 ^ 30) 0x1000), none, some request_b.last], 5⟩

/-- Allocations that all succeed. -/
def allocations_ok : Allocations :=
  ⟨(0x10000, 0x10000), (0x20000, 0x20000), (0x30000, 0x30000), 0x40000⟩

/-- The three DMA allocations succeed, `devm_kcalloc` of the state-pool table
fails. -/
def allocations_no_pool : Allocations :=
  ⟨(0x10000, 0x10000), (0x20000, 0x20000), (0x30000, 0x30000), 0⟩

/-- A platform on which probe succeeds. -/
def platform_ok : Platform :=
  { devm_kzalloc_mtk := 0x100
    devm_ioremap_resource := 0x1E004000
    platform_get_irq := 19
    devm_request_threaded_irq := 0
    devm_kcalloc_ring := 0x200
    allocations := allocations_ok
    mtk_algs := [⟨mtk_alg_type.MTK_ALG_TYPE_SKCIPHER, 0⟩, ⟨mtk_alg_type.MTK_ALG_TYPE_AEAD, 0⟩] }

/-! ## Theorems: the drain -/

/-- Reclaiming descriptors calls no completion handler. -/
theorem completions_drained (cfg : Config) (ds : List eip93_descriptor_s) :
    completions (drained cfg ds) = [] := by
  induction ds with
  | nil => rfl
  | cons d ds ih =>
    simp only [completions] at ih
    simp [drained, reclaim, mtk_irq_clear, completions, Event.isCompletion, ih]

/-- The inner loop over a complete request whose descriptors the count covers. -/
theorem while_ready_request (cfg : Config) (last : eip93_descriptor_s)
    (hl : dma_finished last = true) (hlast : last.userId &&& cfg.MTK_DESC_LAST ≠ 0) :
    ∀ (body : List eip93_descriptor_s),
      (∀ d ∈ body, dma_finished d = true) →
      (∀ d ∈ body, d.userId &&& cfg.MTK_DESC_LAST = 0) →
      ∀ (ready handled : Nat) (l : Locals) (rest : List (Option eip93_descriptor_s)) (free : Nat),
        body.length + 1 ≤ ready →
        while_ready cfg ready handled l ⟨(body ++ [last]).map some ++ rest, free⟩
          = ⟨drained cfg (body ++ [last]), true, false,
              ⟨last.userId, last.arc4Addr, last.errStatus⟩,
              ⟨rest, free + (body.length + 1)⟩⟩ := by
  intro body
  induction body with
  | nil =>
    intro _ _ ready handled l rest free hr
    obtain ⟨r, rfl⟩ : ∃ r, ready = r + 1 := ⟨ready - 1, by simp at hr; omega⟩
    simp [while_ready, mtk_get_descriptor, hl, hlast, drained, reclaim]
  | cons d body ih =>
    intro hf hn ready handled l rest free hr
    obtain ⟨r, rfl⟩ : ∃ r, ready = r + 1 := ⟨ready - 1, by simp at hr; omega⟩
    have hd : dma_finished d = true := hf d (by simp)
    have hdl : d.userId &&& cfg.MTK_DESC_LAST = 0 := hn d (by simp)
    have ih' := ih (fun e he => hf e (by simp [he])) (fun e he => hn e (by simp [he]))
      r (handled + 1) ⟨d.userId, d.arc4Addr, d.errStatus⟩ rest (free + 1)
      (by simp at hr; omega)
    simp only [List.cons_append, List.map_cons, while_ready, mtk_get_descriptor, hd, hdl,
      if_true, ne_eq, not_true_eq_false, if_false, ih']
    simp [drained, reclaim, Nat.add_assoc, Nat.add_comm 1]

/-- The inner loop when `mtk_get_descriptor` fails after the descriptors `ds`. -/
theorem while_ready_error (cfg : Config) :
    ∀ (ds : List eip93_descriptor_s),
      (∀ d ∈ ds, dma_finished d = true) →
      (∀ d ∈ ds, d.userId &&& cfg.MTK_DESC_LAST = 0) →
      ∀ (ready handled : Nat) (l : Locals) (rest : List (Option eip93_descriptor_s)) (free : Nat),
        ds.length < ready →
        let p := while_ready cfg ready handled l ⟨ds.map some ++ none :: rest, free⟩
        p.events = drained cfg ds
            ++ [Event.mtk_get_descriptor none, Event.dev_err (handled + ds.length) (ready - ds.length)]
          ∧ p.last_entry = false ∧ p.spinning = false ∧ p.ring = ⟨rest, free + ds.length⟩ := by
  intro ds
  induction ds with
  | nil =>
    intro _ _ ready handled l rest free hr
    obtain ⟨r, rfl⟩ : ∃ r, ready = r + 1 := ⟨ready - 1, by simp at hr; omega⟩
    simp [while_ready, mtk_get_descriptor, drained]
  | cons d ds ih =>
    intro hf hn ready handled l rest free hr
    obtain ⟨r, rfl⟩ : ∃ r, ready = r + 1 := ⟨ready - 1, by simp at hr; omega⟩
    have hd : dma_finished d = true := hf d (by simp)
    have hdl : d.userId &&& cfg.MTK_DESC_LAST = 0 := hn d (by simp)
    have ih' := ih (fun e he => hf e (by simp [he])) (fun e he => hn e (by simp [he]))
      r (handled + 1) ⟨d.userId, d.arc4Addr, d.errStatus⟩ rest (free + 1)
      (by simp at hr; omega)
    simp only [List.cons_append, List.map_cons, while_ready, mtk_get_descriptor, hd, hdl,
      if_true, ne_eq, not_true_eq_false, if_false]
    obtain ⟨h1, h2, h3, h4⟩ := ih'
    refine ⟨?_, h2, h3, ?_⟩
    · simp only [h1]
      simp [drained, reclaim, Nat.add_assoc, Nat.add_comm 1]
    · simp only [h4]
      simp [Nat.add_assoc, Nat.add_comm 1]

/-- The inner loop does not depend on the values the locals hold on entry,
except for the locals it hands on when it ends without a terminal descriptor. -/
theorem while_ready_locals (cfg : Config) (ready handled : Nat) (l l' : Locals)
    (ring : ResultRing) :
    (while_ready cfg ready handled l ring).events = (while_ready cfg ready handled l' ring).events
      ∧ (while_ready cfg ready handled l ring).last_entry
          = (while_ready cfg ready handled l' ring).last_entry
      ∧ (while_ready cfg ready handled l ring).spinning
          = (while_ready cfg ready handled l' ring).spinning
      ∧ (while_ready cfg ready handled l ring).ring = (while_ready cfg ready handled l' ring).ring
      ∧ ((while_ready cfg ready handled l ring).last_entry = true →
          (while_ready cfg ready handled l ring).locals
            = (while_ready cfg ready handled l' ring).locals) := by
  cases ready with
  | zero => simp [while_ready]
  | succ r =>
    simp only [while_ready]
    rcases h : mtk_get_descriptor ring with ⟨_ | d, ring1⟩
    · simp
    · by_cases hd : dma_finished d = true <;> simp [hd]

/-- The drain does not depend on the values its locals hold on entry. -/
theorem handle_result_locals (cfg : Config) (reads : List Nat) :
    ∀ (l l' : Locals) (ring : ResultRing),
      mtk_handle_result_descriptor cfg l reads ring
        = mtk_handle_result_descriptor cfg l' reads ring := by
  induction reads with
  | nil => intro l l' ring; rfl
  | cons v reads ih =>
    intro l l' ring
    obtain ⟨h1, h2, h3, h4, h5⟩ := while_ready_locals cfg (v &&& GENMASK 10 0) 0 l l' ring
    simp only [mtk_handle_result_descriptor]
    by_cases hz : v &&& GENMASK 10 0 = 0
    · simp [hz]
    · simp only [hz, if_false, ← h1, ← h2, ← h3, ← h4]
      by_cases hs : (while_ready cfg (v &&& GENMASK 10 0) 0 l ring).spinning = true
      · simp [hs]
      · simp only [hs, if_false]
        by_cases hle : (while_ready cfg (v &&& GENMASK 10 0) 0 l ring).last_entry = true
        · simp only [hle, if_true, ← h5 hle]
        · rw [ih _ (while_ready cfg (v &&& GENMASK 10 0) 0 l' ring).locals]
          simp [hle]

/-- One pass of the drain over a covered request. -/
theorem handle_result_served (cfg : Config) (l : Locals) (s : Served) (hs : s.covered cfg)
    (reads : List Nat) (rest : List (Option eip93_descriptor_s)) (free : Nat) :
    mtk_handle_result_descriptor cfg l (s.count :: reads)
        ⟨s.request.descriptors.map some ++ rest, free⟩
      = Run.after (s.events cfg)
          (mtk_handle_result_descriptor cfg l reads ⟨rest, free + (s.request.body.length + 1)⟩) := by
  obtain ⟨⟨hf, hn, hlast⟩, hk, hc⟩ := hs
  have hp := while_ready_request cfg s.request.last
    (hf _ (by simp [Request.descriptors])) hlast s.request.body
    (fun d hd => hf d (by simp [Request.descriptors, hd])) hn
    (s.count &&& GENMASK 10 0) 0 l rest free hc
  have hz : s.count &&& GENMASK 10 0 ≠ 0 := by omega
  simp only [mtk_handle_result_descriptor, hz, if_false, Request.descriptors, hp]
  have hd : dispatch cfg ⟨s.request.last.userId, s.request.last.arc4Addr, s.request.last.errStatus⟩
      = [completion s.kind s.request] := by
    cases hkind : s.kind <;> rw [hkind] at hk <;> obtain ⟨h1, h2, h3⟩ := hk
      <;> simp [dispatch, completion, h1, h2, h3]
  simp only [hd, Served.events, Request.descriptors, Bool.false_eq_true, if_false, if_true]
  rw [handle_result_locals cfg reads _ l]

/-- The free counter and the acknowledgements along the inner loop. -/
theorem while_ready_free (cfg : Config) :
    ∀ (ready handled : Nat) (l : Locals) (ring : ResultRing),
      (while_ready cfg ready handled l ring).ring.free
          = ring.free + fetched (while_ready cfg ready handled l ring).events
        ∧ ((while_ready cfg ready handled l ring).spinning = false →
            acknowledged (while_ready cfg ready handled l ring).events
              = fetched (while_ready cfg ready handled l ring).events) := by
  intro ready
  induction ready with
  | zero => intro handled l ring; simp [while_ready, fetched, acknowledged]
  | succ r ih =>
    intro handled l ring
    simp only [while_ready]
    rcases hring : ring with ⟨rdr, free⟩
    rcases rdr with _ | ⟨_ | d, rest⟩
    · simp [mtk_get_descriptor, fetched, acknowledged, Event.isFetch]
    · simp [mtk_get_descriptor, fetched, acknowledged, Event.isFetch]
    · simp only [mtk_get_descriptor]
      by_cases hd : dma_finished d = true
      · by_cases hl : d.userId &&& cfg.MTK_DESC_LAST = 0
        · obtain ⟨h1, h2⟩ := ih (handled + 1) ⟨d.userId, d.arc4Addr, d.errStatus⟩ ⟨rest, free + 1⟩
          simp only [hd, hl, if_true, ne_eq, not_true_eq_false, if_false]
          simp only [fetched, acknowledged] at h1 h2 ⊢
          refine ⟨?_, fun hs => ?_⟩
          · rw [h1]
            simp [mtk_irq_clear, Event.isFetch]
            omega
          · have := h2 hs
            simp [mtk_irq_clear, Event.isFetch, this]
        · simp [hd, hl, fetched, acknowledged, mtk_irq_clear, Event.isFetch]
      · simp [hd, fetched, acknowledged, Event.isFetch]

/-- The free counter and the acknowledgements along a run of the drain. -/
theorem handle_result_free (cfg : Config) (reads : List Nat) :
    ∀ (l : Locals) (ring : ResultRing),
      (mtk_handle_result_descriptor cfg l reads ring).ring.free
          = ring.free + fetched (mtk_handle_result_descriptor cfg l reads ring).events
        ∧ ((mtk_handle_result_descriptor cfg l reads ring).exit ≠ Exit.spinning →
            acknowledged (mtk_handle_result_descriptor cfg l reads ring).events
              = fetched (mtk_handle_result_descriptor cfg l reads ring).events) := by
  induction reads with
  | nil => intro l ring; simp [mtk_handle_result_descriptor, fetched, acknowledged]
  | cons v reads ih =>
    intro l ring
    obtain ⟨h1, h2⟩ := while_ready_free cfg (v &&& GENMASK 10 0) 0 l ring
    have hcd : ∀ ll : Locals, fetched (dispatch cfg ll) = 0 ∧ acknowledged (dispatch cfg ll) = 0 := by
      intro ll
      simp only [dispatch, fetched, acknowledged]
      constructor <;> split_ifs <;> simp [Event.isFetch]
    simp only [mtk_handle_result_descriptor]
    by_cases hz : v &&& GENMASK 10 0 = 0
    · simp [hz, fetched, acknowledged, mtk_irq_clear, mtk_irq_enable, Event.isFetch]
    · simp only [hz, if_false]
      by_cases hs : (while_ready cfg (v &&& GENMASK 10 0) 0 l ring).spinning = true
      · simp only [hs, if_true]
        simp only [fetched, acknowledged] at h1 ⊢
        simp [h1, Event.isFetch]
      · have h2' := h2 (by simpa using hs)
        obtain ⟨i1, i2⟩ := ih (while_ready cfg (v &&& GENMASK 10 0) 0 l ring).locals
          (while_ready cfg (v &&& GENMASK 10 0) 0 l ring).ring
        obtain ⟨d1, d2⟩ := hcd (while_ready cfg (v &&& GENMASK 10 0) 0 l ring).locals
        simp only [hs, if_false, Bool.false_eq_true]
        by_cases hle : (while_ready cfg (v &&& GENMASK 10 0) 0 l ring).last_entry = true
        · simp only [hle, if_true, Run.after]
          simp only [fetched, acknowledged] at h1 h2' i1 i2 d1 d2 ⊢
          refine ⟨?_, fun hx => ?_⟩
          · rw [i1, h1]
            simp [Event.isFetch, d1]
            omega
          · have := i2 hx
            simp [Event.isFetch, d1, d2, this, h2']
        · simp only [hle, if_false, Bool.false_eq_true, Run.after]
          simp only [fetched, acknowledged] at h1 h2' i1 i2 ⊢
          refine ⟨?_, fun hx => ?_⟩
          · rw [i1, h1]
            simp [Event.isFetch]
            omega
          · have := i2 hx
            simp [Event.isFetch, this, h2']

/-- C3: when the value read from `EIP93_REG_PE_RD_COUNT`, masked to bits 10..0,
is 0 on entry, the drain reads the count, writes the threshold cause to the
cause-clear and then to the mask-enable register, and returns: it never calls
`mtk_get_descriptor`, calls no completion handler, acknowledges nothing and
leaves the ring as it was. -/
theorem handle_result_nothing_ready (cfg : Config) (l : Locals) (v : Nat) (reads : List Nat)
    (ring : ResultRing) (h : v &&& GENMASK 10 0 = 0) :
    (mtk_handle_result_descriptor cfg l (v :: reads) ring).events
        = [Event.readl Reg.EIP93_REG_PE_RD_COUNT v,
            Event.writel (Word.raw cfg.EIP93_INT_PE_RDRTHRESH_REQ) Reg.EIP93_REG_INT_CLR,
            Event.writel (Word.raw cfg.EIP93_INT_PE_RDRTHRESH_REQ) Reg.EIP93_REG_MASK_ENABLE]
      ∧ (mtk_handle_result_descriptor cfg l (v :: reads) ring).exit = Exit.returned
      ∧ (mtk_handle_result_descriptor cfg l (v :: reads) ring).ring = ring
      ∧ (∀ r, Event.mtk_get_descriptor r
          ∉ (mtk_handle_result_descriptor cfg l (v :: reads) ring).events)
      ∧ completions (mtk_handle_result_descriptor cfg l (v :: reads) ring).events = []
      ∧ (∀ w, Event.writel w Reg.EIP93_REG_PE_RD_COUNT
          ∉ (mtk_handle_result_descriptor cfg l (v :: reads) ring).events) := by
  simp [mtk_handle_result_descriptor, h, mtk_irq_clear, mtk_irq_enable, completions,
    Event.isCompletion]

/-- C3 at a count of 2048, whose bits 10..0 are 0, with a descriptor waiting in the ring. -/
theorem handle_result_nothing_ready_witness :
    (mtk_handle_result_descriptor cfg0 l0 [2048, 7] ⟨[some ⟨[(true, true)], 0, 0, 0⟩], 6⟩).events
        = [Event.readl Reg.EIP93_REG_PE_RD_COUNT 2048,
            Event.writel (Word.raw cfg0.EIP93_INT_PE_RDRTHRESH_REQ) Reg.EIP93_REG_INT_CLR,
            Event.writel (Word.raw cfg0.EIP93_INT_PE_RDRTHRESH_REQ) Reg.EIP93_REG_MASK_ENABLE]
      ∧ (mtk_handle_result_descriptor cfg0 l0 [2048, 7]
          ⟨[some ⟨[(true, true)], 0, 0, 0⟩], 6⟩).exit = Exit.returned :=
  have h := handle_result_nothing_ready cfg0 l0 2048 [7]
    ⟨[some ⟨[(true, true)], 0, 0, 0⟩], 6⟩ (by decide)
  ⟨h.1, h.2.1⟩

/-- C1: a request `d0..dn` lies at the read cursor, every descriptor gets both
ready bits, `MTK_DESC_LAST` is set in the tag of `dn` only, the tag of `dn` has
one kind and the count read covers the `n+1` descriptors.  Then the drain
reads the count, fetches and acknowledges `d0..dn` in order, and only then calls
the handler of that kind, once, with the back-reference and the error status of
`dn`; it goes on as a drain of the rest of the ring, whatever `d0..dn` held. -/
theorem handle_result_single_request (cfg : Config) (l : Locals) (v : Nat) (reads : List Nat)
    (q : Request) (k : Kind) (rest : List (Option eip93_descriptor_s)) (free : Nat)
    (hq : q.complete cfg) (hk : q.hasKind cfg k)
    (hv : q.body.length + 1 ≤ v &&& GENMASK 10 0) :
    mtk_handle_result_descriptor cfg l (v :: reads) ⟨q.descriptors.map some ++ rest, free⟩
        = Run.after
            (Event.readl Reg.EIP93_REG_PE_RD_COUNT v
              :: (drained cfg q.descriptors ++ [completion k q]))
            (mtk_handle_result_descriptor cfg l reads ⟨rest, free + (q.body.length + 1)⟩)
      ∧ completions (Event.readl Reg.EIP93_REG_PE_RD_COUNT v
          :: (drained cfg q.descriptors ++ [completion k q])) = [completion k q] := by
  refine ⟨handle_result_served cfg l ⟨v, q, k⟩ ⟨hq, hk, hv⟩ reads rest free, ?_⟩
  have h := completions_drained cfg q.descriptors
  simp only [completions] at h ⊢
  cases k <;> simp [completion, Event.isCompletion, h]

/-- C1 for a two-descriptor skcipher request and a count of 2: the error status 9
of the first descriptor is not passed on. -/
theorem handle_result_single_request_witness :
    mtk_handle_result_descriptor cfg0 l0 [2, 0] ⟨request_a.descriptors.map some ++ [], 6⟩
        = Run.after
            (Event.readl Reg.EIP93_REG_PE_RD_COUNT 2
              :: (drained cfg0 request_a.descriptors ++ [completion Kind.skcipher request_a]))
            (mtk_handle_result_descriptor cfg0 l0 [0] ⟨[], 6 + (request_a.body.length + 1)⟩)
      ∧ completions (Event.readl Reg.EIP93_REG_PE_RD_COUNT 2
          :: (drained cfg0 request_a.descriptors ++ [completion Kind.skcipher request_a]))
        = [completion Kind.skcipher request_a] :=
  handle_result_single_request cfg0 l0 2 [0] request_a Kind.skcipher [] 6
    (by decide) (by decide) (by decide)

/-- C2: complete requests lie back to back in the result ring and each count
read on arrival at `get_more` covers the request at the read cursor.  Then one
call of the drain makes one pass per request, in ring order: it reads the
count, reclaims the descriptors of the request and calls its handler before the
next request is touched; the handler calls are exactly one per request, in
ring order. -/
theorem handle_result_requests_in_order (cfg : Config) (l : Locals) (ss : List Served)
    (reads : List Nat) (rest : List (Option eip93_descriptor_s)) (free : Nat)
    (hs : ∀ s ∈ ss, s.covered cfg) :
    mtk_handle_result_descriptor cfg l (ss.map Served.count ++ reads)
          ⟨servedSlots ss ++ rest, free⟩
        = Run.after (servedEvents cfg ss)
            (mtk_handle_result_descriptor cfg l reads ⟨rest, free + servedCount ss⟩)
      ∧ completions (servedEvents cfg ss) = ss.map (fun s => completion s.kind s.request) := by
  induction ss generalizing free with
  | nil => simp [servedSlots, servedEvents, servedCount, Run.after, completions]
  | cons s ss ih =>
    have hcov : s.covered cfg := hs s (by simp)
    obtain ⟨i1, i2⟩ := ih (free + (s.request.body.length + 1)) (fun t ht => hs t (by simp [ht]))
    constructor
    · simp only [List.map_cons, List.cons_append, servedSlots, List.append_assoc]
      rw [handle_result_served cfg l s hcov, i1]
      simp [Run.after, servedEvents, servedCount, Nat.add_assoc]
    · have h := completions_drained cfg s.request.descriptors
      simp only [completions] at h i2 ⊢
      simp only [servedEvents, Served.events, List.filter_append, List.map_cons, i2]
      cases s.kind <;> simp [completion, Event.isCompletion, h]

/-- C2 for a request of two descriptors followed by a request of one: two
handler calls, that of the first request and then that of the second. -/
theorem handle_result_requests_in_order_witness :
    mtk_handle_result_descriptor cfg0 l0
          ([⟨3, request_a, Kind.skcipher⟩, ⟨1, request_b, Kind.aead⟩].map Served.count ++ [0])
          ⟨servedSlots [⟨3, request_a, Kind.skcipher⟩, ⟨1, request_b, Kind.aead⟩] ++ [], 5⟩
        = Run.after (servedEvents cfg0 [⟨3, request_a, Kind.skcipher⟩, ⟨1, request_b, Kind.aead⟩])
            (mtk_handle_result_descriptor cfg0 l0 [0]
              ⟨[], 5 + servedCount [⟨3, request_a, Kind.skcipher⟩, ⟨1, request_b, Kind.aead⟩]⟩)
      ∧ completions (servedEvents cfg0 [⟨3, request_a, Kind.skcipher⟩, ⟨1, request_b, Kind.aead⟩])
        = [Event.mtk_skcipher_handle_result 0x1000 0, Event.mtk_aead_handle_result 0x2000 3] :=
  handle_result_requests_in_order cfg0 l0
    [⟨3, request_a, Kind.skcipher⟩, ⟨1, request_b, Kind.aead⟩] [0] [] 5 (by decide)

/-- C4, as stated, fails: the count read is 2, the ring supplies one descriptor
and then reports that none is available, which is logged with handled = 1 and
remaining = 1.  The call does not end there: it reads the count again, and as
the ring now supplies a descriptor it fetches and acknowledges it and calls its
handler before it returns. -/
theorem handle_result_goes_on_after_fetch_error :
    (mtk_handle_result_descriptor cfg0 l0 [2, 1, 0] ring_gap).exit = Exit.returned
      ∧ ∃ before later,
          (mtk_handle_result_descriptor cfg0 l0 [2, 1, 0] ring_gap).events
              = before ++ Event.mtk_get_descriptor none :: Event.dev_err 1 1 :: later
            ∧ fetched later = 1 ∧ acknowledged later = 1
            ∧ completions later = [Event.mtk_aead_handle_result 0x2000 3] := by
  refine ⟨by decide, ?_⟩
  refine ⟨[Event.readl Reg.EIP93_REG_PE_RD_COUNT 2,
      Event.mtk_get_descriptor (some (ready_desc 0 (2 ^ 30) 0x1000)),
      Event.writel (Word.raw 1) Reg.EIP93_REG_PE_RD_COUNT,
      Event.writel (Word.raw 2) Reg.EIP93_REG_INT_CLR],
    [Event.readl Reg.EIP93_REG_PE_RD_COUNT 1,
      Event.mtk_get_descriptor (some request_b.last),
      Event.writel (Word.raw 1) Reg.EIP93_REG_PE_RD_COUNT,
      Event.writel (Word.raw 2) Reg.EIP93_REG_INT_CLR,
      Event.mtk_aead_handle_result 0x2000 3,
      Event.readl Reg.EIP93_REG_PE_RD_COUNT 0,
      Event.writel (Word.raw 2) Reg.EIP93_REG_INT_CLR,
      Event.writel (Word.raw 2) Reg.EIP93_REG_MASK_ENABLE], ?_, ?_, ?_, ?_⟩
  · decide
  · decide
  · decide
  · decide

/-- C4, amended: the count read is `m > 0` and `mtk_get_descriptor` fails after
it supplied `h < m` descriptors, none of them tagged `MTK_DESC_LAST`.  Then the
failure is logged with handled = `h` and remaining = `m - h`, the inner loop is
left, and between the failed fetch and the next read of the count nothing is
fetched or acknowledged and no handler is called; the call itself goes on from
`get_more` as a drain of what the ring supplies next. -/
theorem handle_result_fetch_error (cfg : Config) (l : Locals) (v : Nat) (reads : List Nat)
    (ds : List eip93_descriptor_s) (rest : List (Option eip93_descriptor_s)) (free : Nat)
    (hf : ∀ d ∈ ds, dma_finished d = true)
    (hn : ∀ d ∈ ds, d.userId &&& cfg.MTK_DESC_LAST = 0)
    (hm : ds.length < v &&& GENMASK 10 0) :
    mtk_handle_result_descriptor cfg l (v :: reads) ⟨ds.map some ++ none :: rest, free⟩
        = Run.after
            (Event.readl Reg.EIP93_REG_PE_RD_COUNT v
              :: (drained cfg ds
                ++ [Event.mtk_get_descriptor none,
                    Event.dev_err ds.length ((v &&& GENMASK 10 0) - ds.length)]))
            (mtk_handle_result_descriptor cfg l reads ⟨rest, free + ds.length⟩)
      ∧ completions (Event.readl Reg.EIP93_REG_PE_RD_COUNT v
          :: (drained cfg ds
            ++ [Event.mtk_get_descriptor none,
                Event.dev_err ds.length ((v &&& GENMASK 10 0) - ds.length)])) = [] := by
  obtain ⟨h1, h2, h3, h4⟩ := while_ready_error cfg ds hf hn (v &&& GENMASK 10 0) 0 l rest free hm
  have hz : v &&& GENMASK 10 0 ≠ 0 := by omega
  constructor
  · simp only [mtk_handle_result_descriptor, hz, if_false, h2, h3, h4, Bool.false_eq_true]
    rw [handle_result_locals cfg reads _ l, h1]
    simp
  · have h := completions_drained cfg ds
    simp only [completions] at h ⊢
    simp [Event.isCompletion, h]

/-- C4, amended, at a count of 2 with one descriptor in the ring before the
failed fetch. -/
theorem handle_result_fetch_error_witness :
    mtk_handle_result_descriptor cfg0 l0 [2, 1, 0]
          ⟨[ready_desc 0 (2 ^ 30) 0x1000].map some ++ none :: [some request_b.last], 5⟩
        = Run.after
            (Event.readl Reg.EIP93_REG_PE_RD_COUNT 2
              :: (drained cfg0 [ready_desc 0 (2 ^ 30) 0x1000]
                ++ [Event.mtk_get_descriptor none,
                    Event.dev_err [ready_desc 0 (2 ^ 30) 0x1000].length
                      ((2 &&& GENMASK 10 0) - [ready_desc 0 (2 ^ 30) 0x1000].length)]))
            (mtk_handle_result_descriptor cfg0 l0 [1, 0]
              ⟨[some request_b.last], 5 + [ready_desc 0 (2 ^ 30) 0x1000].length⟩) :=
  (handle_result_fetch_error cfg0 l0 2 [1, 0] [ready_desc 0 (2 ^ 30) 0x1000]
    [some request_b.last] 5 (by decide) (by decide) (by decide)).1

/-- C6: in a call of the drain that returns, every descriptor that was fetched
was acknowledged, and the free counter has grown by exactly the number of
descriptors reclaimed, one increment per descriptor. -/
theorem handle_result_free_counter (cfg : Config) (l : Locals) (reads : List Nat)
    (ring : ResultRing)
    (h : (mtk_handle_result_descriptor cfg l reads ring).exit = Exit.returned) :
    fetched (mtk_handle_result_descriptor cfg l reads ring).events
        = acknowledged (mtk_handle_result_descriptor cfg l reads ring).events
      ∧ (mtk_handle_result_descriptor cfg l reads ring).ring.free
        = ring.free + acknowledged (mtk_handle_result_descriptor cfg l reads ring).events := by
  obtain ⟨h1, h2⟩ := handle_result_free cfg reads l ring
  have h3 := h2 (by rw [h]; decide)
  exact ⟨h3.symm, by rw [h1, h3]⟩

/-- C6 for a ring of capacity 8 and one single-descriptor request: free goes
from 8 - 2 to 8 - 1 and the skcipher handler is called once with the
back-reference 0x1000 and the recorded error status. -/
theorem handle_result_free_counter_witness :
    fetched (mtk_handle_result_descriptor cfg0 l0 [1, 0]
          ⟨[some (ready_desc 0 (2 ^ 30 + 2 ^ 25) 0x1000)], 8 - 2⟩).events = 1
      ∧ (mtk_handle_result_descriptor cfg0 l0 [1, 0]
          ⟨[some (ready_desc 0 (2 ^ 30 + 2 ^ 25) 0x1000)], 8 - 2⟩).ring.free = 8 - 1
      ∧ completions (mtk_handle_result_descriptor cfg0 l0 [1, 0]
          ⟨[some (ready_desc 0 (2 ^ 30 + 2 ^ 25) 0x1000)], 8 - 2⟩).events
        = [Event.mtk_skcipher_handle_result 0x1000 0] :=
  have h := handle_result_free_counter cfg0 l0 [1, 0]
    ⟨[some (ready_desc 0 (2 ^ 30 + 2 ^ 25) 0x1000)], 8 - 2⟩ (by decide)
  ⟨h.1.trans (by decide), h.2.trans (by decide), by decide⟩

/-- C10: a call of the drain that returns ends with a read of
`EIP93_REG_PE_RD_COUNT` whose value masked to bits 10..0 is 0, followed by the
write of the threshold cause to the cause-clear register and then to the
mask-enable register, whatever happened before (dispatches, passes without a
terminal descriptor, failed fetches). -/
theorem handle_result_returns_rearmed (cfg : Config) (l : Locals) (reads : List Nat)
    (ring : ResultRing)
    (h : (mtk_handle_result_descriptor cfg l reads ring).exit = Exit.returned) :
    ∃ before v, v &&& GENMASK 10 0 = 0
      ∧ (mtk_handle_result_descriptor cfg l reads ring).events
        = before ++ [Event.readl Reg.EIP93_REG_PE_RD_COUNT v,
            Event.writel (Word.raw cfg.EIP93_INT_PE_RDRTHRESH_REQ) Reg.EIP93_REG_INT_CLR,
            Event.writel (Word.raw cfg.EIP93_INT_PE_RDRTHRESH_REQ) Reg.EIP93_REG_MASK_ENABLE] := by
  induction reads generalizing l ring with
  | nil => simp [mtk_handle_result_descriptor] at h
  | cons v reads ih =>
    simp only [mtk_handle_result_descriptor] at h ⊢
    by_cases hz : v &&& GENMASK 10 0 = 0
    · exact ⟨[], v, hz, by simp [hz, mtk_irq_clear, mtk_irq_enable]⟩
    · simp only [hz, if_false] at h ⊢
      by_cases hs : (while_ready cfg (v &&& GENMASK 10 0) 0 l ring).spinning = true
      · simp [hs] at h
      · simp only [hs, if_false, Bool.false_eq_true] at h ⊢
        by_cases hle : (while_ready cfg (v &&& GENMASK 10 0) 0 l ring).last_entry = true
        · simp only [hle, if_true, Run.after] at h ⊢
          obtain ⟨before, w, hw, he⟩ := ih _ _ h
          exact ⟨Event.readl Reg.EIP93_REG_PE_RD_COUNT v
            :: ((while_ready cfg (v &&& GENMASK 10 0) 0 l ring).events
              ++ dispatch cfg (while_ready cfg (v &&& GENMASK 10 0) 0 l ring).locals) ++ before,
            w, hw, by rw [he]; simp⟩
        · simp only [hle, if_false, Bool.false_eq_true, Run.after] at h ⊢
          obtain ⟨before, w, hw, he⟩ := ih _ _ h
          exact ⟨Event.readl Reg.EIP93_REG_PE_RD_COUNT v
            :: (while_ready cfg (v &&& GENMASK 10 0) 0 l ring).events ++ before,
            w, hw, by rw [he]; simp⟩

/-- C10 for a run with a pass without terminal descriptor, a failed fetch and a
dispatch before the count reads 0. -/
theorem handle_result_returns_rearmed_witness :
    ∃ before v, v &&& GENMASK 10 0 = 0
      ∧ (mtk_handle_result_descriptor cfg0 l0 [2, 1, 4096] ring_gap).events
        = before ++ [Event.readl Reg.EIP93_REG_PE_RD_COUNT v,
            Event.writel (Word.raw cfg0.EIP93_INT_PE_RDRTHRESH_REQ) Reg.EIP93_REG_INT_CLR,
            Event.writel (Word.raw cfg0.EIP93_INT_PE_RDRTHRESH_REQ) Reg.EIP93_REG_MASK_ENABLE] :=
  handle_result_returns_rearmed cfg0 l0 [2, 1, 4096] ring_gap (by decide)

/-! ## Theorems: the interrupt handler -/

/-- C5: for every value `s` read from the cause-status register: if `s` has the
result-ring threshold cause set, the handler writes exactly that cause to the
mask-disable register, schedules the done tasklet once, writes nothing else and
returns `IRQ_HANDLED`; otherwise it writes `s` to the cause-clear register,
writes `s` to the mask-disable register when `s` is not zero, does not schedule
the tasklet and returns `IRQ_NONE`. -/
theorem irq_handler_classifies (cfg : Config) (s : Nat) :
    (s &&& cfg.EIP93_INT_PE_RDRTHRESH_REQ ≠ 0 →
        mtk_irq_handler cfg s
          = ([Event.readl Reg.EIP93_REG_INT_MASK_STAT s,
              Event.writel (Word.raw cfg.EIP93_INT_PE_RDRTHRESH_REQ) Reg.EIP93_REG_MASK_DISABLE,
              Event.tasklet_schedule],
            irqreturn_t.IRQ_HANDLED))
      ∧ (s &&& cfg.EIP93_INT_PE_RDRTHRESH_REQ = 0 →
        mtk_irq_handler cfg s
          = (Event.readl Reg.EIP93_REG_INT_MASK_STAT s
              :: Event.writel (Word.raw s) Reg.EIP93_REG_INT_CLR
              :: (if s ≠ 0 then [Event.writel (Word.raw s) Reg.EIP93_REG_MASK_DISABLE] else []),
            irqreturn_t.IRQ_NONE)) := by
  constructor
  · intro h
    simp [mtk_irq_handler, h, mtk_irq_disable]
  · intro h
    simp [mtk_irq_handler, h, mtk_irq_disable, mtk_irq_clear]

/-- C5 at a status with the threshold cause set, at a status with other causes
only, and at status 0. -/
theorem irq_handler_classifies_witness :
    mtk_irq_handler cfg0 6
        = ([Event.readl Reg.EIP93_REG_INT_MASK_STAT 6,
            Event.writel (Word.raw 2) Reg.EIP93_REG_MASK_DISABLE,
            Event.tasklet_schedule],
          irqreturn_t.IRQ_HANDLED)
      ∧ mtk_irq_handler cfg0 5
        = ([Event.readl Reg.EIP93_REG_INT_MASK_STAT 5,
            Event.writel (Word.raw 5) Reg.EIP93_REG_INT_CLR,
            Event.writel (Word.raw 5) Reg.EIP93_REG_MASK_DISABLE],
          irqreturn_t.IRQ_NONE)
      ∧ mtk_irq_handler cfg0 0
        = ([Event.readl Reg.EIP93_REG_INT_MASK_STAT 0,
            Event.writel (Word.raw 0) Reg.EIP93_REG_INT_CLR],
          irqreturn_t.IRQ_NONE) :=
  ⟨(irq_handler_classifies cfg0 6).1 (by decide),
    (irq_handler_classifies cfg0 5).2 (by decide),
    (irq_handler_classifies cfg0 0).2 (by decide)⟩

/-! ## Theorems: bring-up and tear-down -/

/-- The register writes of two runs of events, one after the other. -/
theorem writes_append (xs ys : List Event) : writes (xs ++ ys) = writes xs ++ writes ys := by
  induction xs with
  | nil => rfl
  | cons e xs ih => cases e <;> simp [writes, ih]

/-- Unregistering algorithms writes no register. -/
theorem writes_unregister_from (cfg : Config) (algs : List mtk_alg_template) :
    ∀ j, writes (unregister_from cfg j algs) = [] := by
  induction algs with
  | nil => intro j; rfl
  | cons alg algs ih =>
    intro j
    have h1 : writes (unregister_one cfg j alg) = [] := by
      unfold unregister_one
      cases alg.type <;> simp only [] <;> first | rfl | (split_ifs <;> rfl)
    simp [unregister_from, writes_append, h1, ih]

/-- Registering algorithms writes no register. -/
theorem writes_register_from (cfg : Config) (mtk_algs algs : List mtk_alg_template) :
    ∀ i, writes (register_from cfg mtk_algs i algs).2 = [] := by
  induction algs with
  | nil => intro i; rfl
  | cons alg algs ih =>
    intro i
    simp only [register_from]
    split_ifs
    · simp [writes, mtk_unregister_algs, writes_unregister_from]
    · simp [writes, ih]
    · rfl

/-- When the ring set-up returns 0 it made exactly the three ring-registration
writes. -/
theorem desc_init_events (cfg : Config) (a : Allocations) (ring : mtk_ring)
    (h : (mtk_desc_init cfg a ring).outcome = Outcome.returns 0) :
    (mtk_desc_init cfg a ring).events
      = [Event.writel (Word.raw (a.cdr.2 % 2 ^ 32)) Reg.EIP93_REG_PE_CDR_BASE,
          Event.writel (Word.raw (a.rdr.2 % 2 ^ 32)) Reg.EIP93_REG_PE_RDR_BASE,
          Event.writel (Word.peRingCfg (cfg.MTK_RING_SIZE - 1) (cfg.sizeof_eip93_descriptor_s / 4))
            Reg.EIP93_REG_PE_RING_CONFIG] := by
  unfold mtk_desc_init at h ⊢
  simp only [mtk_set_ring] at h ⊢
  by_cases h1 : a.cdr.1 = 0
  · simp [h1, ENOMEM] at h
  · by_cases h2 : a.rdr.1 = 0
    · simp [h1, h2, ENOMEM] at h
    · by_cases h3 : a.saState.1 = 0
      · simp [h1, h2, h3, ENOMEM] at h
      · simp only [h1, h2, h3, if_false, ne_eq, not_true_eq_false] at h ⊢
        split <;> simp_all

/-- A probe that returns 0 did the ring set-up, initialised the tasklet, ran
` mtk_initialize`, enabled the threshold interrupt and registered the
algorithms, in this order. -/
theorem probe_success (cfg : Config) (pf : Platform)
    (h : (mtk_crypto_probe cfg pf).outcome = Outcome.returns 0) :
    (mtk_crypto_probe cfg pf).events
        = (mtk_desc_init cfg pf.allocations zeroed_ring).events ++ [Event.tasklet_init]
            ++ mtk_initialize cfg ++ mtk_irq_enable cfg.EIP93_INT_PE_RDRTHRESH_REQ
            ++ (mtk_register_algs cfg pf.mtk_algs).2
      ∧ (mtk_desc_init cfg pf.allocations zeroed_ring).outcome = Outcome.returns 0 := by
  unfold mtk_crypto_probe at h ⊢
  by_cases h1 : pf.devm_kzalloc_mtk = 0
  · simp [h1, ENOMEM] at h
  · by_cases h2 : IS_ERR pf.devm_ioremap_resource = true
    · simp only [h1, h2, if_false, if_true, Outcome.returns.injEq] at h
      simp [IS_ERR, h] at h2
    · by_cases h3 : pf.platform_get_irq < 0
      · simp only [h1, h2, h3, if_false, if_true, Outcome.returns.injEq, Bool.false_eq_true] at h
        omega
      · by_cases h4 : pf.devm_kcalloc_ring = 0
        · simp [h1, h2, h3, h4, ENOMEM] at h
        · simp only [h1, h2, h3, h4, if_false, Bool.false_eq_true] at h ⊢
          rcases hd : (mtk_desc_init cfg pf.allocations zeroed_ring).outcome with err | _
          · simp only [hd] at h ⊢
            by_cases h5 : err = 0
            · subst h5
              by_cases h6 : (mtk_register_algs cfg pf.mtk_algs).1 = 0
              · simp [h6]
              · simp [h6] at h
            · simp [h5] at h
          · simp [hd] at h

set_option maxRecDepth 100000 in
/-- C7, as stated, fails: in a probe that succeeds, the two ring bases and
`PE_RING_CONFIG` are written before the reset pulse, so the stages of the
register writes are not in the order RESET, CONFIGURE, RING-REGISTER, READY. -/
theorem probe_registers_rings_before_reset :
    (mtk_crypto_probe cfg0 platform_ok).outcome = Outcome.returns 0
      ∧ ¬ List.Pairwise (fun a b => a ≤ b)
          ((stages (mtk_crypto_probe cfg0 platform_ok).events).map Stage.stated)
      ∧ (writes (mtk_crypto_probe cfg0 platform_ok).events).take 4
        = [(Word.raw 0x10000, Reg.EIP93_REG_PE_CDR_BASE),
            (Word.raw 0x20000, Reg.EIP93_REG_PE_RDR_BASE),
            (Word.peRingCfg 511 8, Reg.EIP93_REG_PE_RING_CONFIG),
            (Word.peConfig 1 1 3 1, Reg.EIP93_REG_PE_CONFIG)] := by
  refine ⟨by decide, by decide, by decide⟩

/-- C7, amended: in a probe that succeeds the register writes are, in this
order: RING-REGISTER (`PE_CDR_BASE`, `PE_RDR_BASE`, and `PE_RING_CONFIG` with
ringSize = `MTK_RING_SIZE - 1` and ringOffset = sizeof(descriptor)/4), RESET
(`PE_CONFIG` with resetPE = resetRing = 1, then with both 0), CONFIGURE (endian,
interrupt config, clock control, buffer thresholds, interrupt clear and mask,
ring thresholds), READY (mask-enable of the result-ring threshold cause); no
reset or configuration write precedes the ring registration and the interrupt
enable is the last write. -/
theorem probe_write_order (cfg : Config) (pf : Platform)
    (h : (mtk_crypto_probe cfg pf).outcome = Outcome.returns 0) :
    writes (mtk_crypto_probe cfg pf).events
        = [(Word.raw (pf.allocations.cdr.2 % 2 ^ 32), Reg.EIP93_REG_PE_CDR_BASE),
            (Word.raw (pf.allocations.rdr.2 % 2 ^ 32), Reg.EIP93_REG_PE_RDR_BASE),
            (Word.peRingCfg (cfg.MTK_RING_SIZE - 1) (cfg.sizeof_eip93_descriptor_s / 4),
              Reg.EIP93_REG_PE_RING_CONFIG),
            (Word.peConfig 1 1 3 1, Reg.EIP93_REG_PE_CONFIG),
            (Word.peConfig 0 0 3 1, Reg.EIP93_REG_PE_CONFIG),
            (Word.raw 0, Reg.EIP93_REG_PE_ENDIAN_CONFIG),
            (Word.raw 0, Reg.EIP93_REG_INT_CFG),
            (Word.peClockCfg 1
                (if cfg.CONFIG_CRYPTO_DEV_EIP93_DES then 1 else 0)
                (if cfg.CONFIG_CRYPTO_DEV_EIP93_AES then 1 else 0)
                (if cfg.CONFIG_CRYPTO_DEV_EIP93_HMAC then 1 else 0),
              Reg.EIP93_REG_PE_CLOCK_CTRL),
            (Word.peBufThresh 128 128, Reg.EIP93_REG_PE_BUF_THRESH),
            (Word.raw 0xFFFFFFFF, Reg.EIP93_REG_INT_CLR),
            (Word.raw 0xFFFFFFFF, Reg.EIP93_REG_MASK_DISABLE),
            (Word.peRingThresh ((cfg.MTK_RING_SIZE : Int) - (cfg.MTK_RING_BUSY : Int)) 0 5 1,
              Reg.EIP93_REG_PE_RING_THRESH),
            (Word.raw cfg.EIP93_INT_PE_RDRTHRESH_REQ, Reg.EIP93_REG_MASK_ENABLE)]
      ∧ List.Pairwise (fun a b => a ≤ b)
          ((stages (mtk_crypto_probe cfg pf).events).map Stage.coded) := by
  obtain ⟨hev, hd⟩ := probe_success cfg pf h
  have hw := congrArg writes hev
  simp only [writes_append, desc_init_events cfg pf.allocations zeroed_ring hd,
    mtk_register_algs, writes_register_from, List.append_nil] at hw
  constructor
  · rw [hw]
    simp [writes, mtk_initialize, mtk_irq_clear, mtk_irq_disable, mtk_irq_enable]
  · simp only [stages, hw]
    simp [writes, mtk_initialize, mtk_irq_clear, mtk_irq_disable, mtk_irq_enable, Stage.of,
      Stage.coded]

set_option maxRecDepth 100000 in
/-- C7, amended, on the test platform. -/
theorem probe_write_order_witness :
    (mtk_crypto_probe cfg0 platform_ok).outcome = Outcome.returns 0
      ∧ writes (mtk_crypto_probe cfg0 platform_ok).events
        = [(Word.raw 0x10000, Reg.EIP93_REG_PE_CDR_BASE),
            (Word.raw 0x20000, Reg.EIP93_REG_PE_RDR_BASE),
            (Word.peRingCfg 511 8, Reg.EIP93_REG_PE_RING_CONFIG),
            (Word.peConfig 1 1 3 1, Reg.EIP93_REG_PE_CONFIG),
            (Word.peConfig 0 0 3 1, Reg.EIP93_REG_PE_CONFIG),
            (Word.raw 0, Reg.EIP93_REG_PE_ENDIAN_CONFIG),
            (Word.raw 0, Reg.EIP93_REG_INT_CFG),
            (Word.peClockCfg 1 1 1 1, Reg.EIP93_REG_PE_CLOCK_CTRL),
            (Word.peBufThresh 128 128, Reg.EIP93_REG_PE_BUF_THRESH),
            (Word.raw 0xFFFFFFFF, Reg.EIP93_REG_INT_CLR),
            (Word.raw 0xFFFFFFFF, Reg.EIP93_REG_MASK_DISABLE),
            (Word.peRingThresh 480 0 5 1, Reg.EIP93_REG_PE_RING_THRESH),
            (Word.raw 2, Reg.EIP93_REG_MASK_ENABLE)] :=
  ⟨by decide, (probe_write_order cfg0 platform_ok (by decide)).1⟩

/-- C8: running `mtk_cleanup` twice in succession leaves the device as running
it once does, from every starting state: the done tasklet is not scheduled, the
last value written to the cause-clear and to the mask-disable register is
0xFFFFFFFF, and `PE_CLOCK_CTRL`, `PE_RING_CONFIG`, `PE_CDR_BASE` and
`PE_RDR_BASE` hold 0. -/
theorem cleanup_idempotent (dev : Device) :
    (dev.run mtk_cleanup).run mtk_cleanup = dev.run mtk_cleanup
      ∧ (dev.run mtk_cleanup).done_task_scheduled = false
      ∧ (dev.run mtk_cleanup).regs Reg.EIP93_REG_INT_CLR = Word.raw 0xFFFFFFFF
      ∧ (dev.run mtk_cleanup).regs Reg.EIP93_REG_MASK_DISABLE = Word.raw 0xFFFFFFFF
      ∧ (dev.run mtk_cleanup).regs Reg.EIP93_REG_PE_CLOCK_CTRL = Word.raw 0
      ∧ (dev.run mtk_cleanup).regs Reg.EIP93_REG_PE_RING_CONFIG = Word.raw 0
      ∧ (dev.run mtk_cleanup).regs Reg.EIP93_REG_PE_CDR_BASE = Word.raw 0
      ∧ (dev.run mtk_cleanup).regs Reg.EIP93_REG_PE_RDR_BASE = Word.raw 0 := by
  refine ⟨?_, ?_, ?_, ?_, ?_, ?_, ?_, ?_⟩
  · simp only [Device.run, mtk_cleanup, mtk_irq_clear, mtk_irq_disable, mtk_desc_free,
      List.cons_append, List.nil_append, List.foldl_cons, List.foldl_nil, Device.step,
      Device.mk.injEq, and_true]
    funext r
    cases r <;> simp [Function.update]
  all_goals
    simp [Device.run, mtk_cleanup, mtk_irq_clear, mtk_irq_disable, mtk_desc_free, Device.step,
      Function.update]

/-- From a pool pointer that is `NULL` the loop over the state pool faults as
soon as it has an iteration to make. -/
theorem state_pool_loop_null (RingOffset n i : Nat) (ring : mtk_ring)
    (h : ring.saState_pool = 0) :
    state_pool_loop RingOffset (n + 1) i ring = none := by
  simp [state_pool_loop, h]

/-- C9 fails on the code: when the three DMA allocations succeed and
`devm_kcalloc` of the state-pool table returns `NULL`, `mtk_desc_init` does not
return `-ENOMEM`: the pointer is not tested and the first iteration of the loop
of lines 365-370 writes through it (the ring has at least one slot). -/
theorem desc_init_pool_table_unchecked (cfg : Config) (a : Allocations) (ring : mtk_ring)
    (hc : a.cdr.1 ≠ 0) (hr : a.rdr.1 ≠ 0) (hs : a.saState.1 ≠ 0) (hp : a.saState_pool = 0)
    (hn : 0 < cfg.MTK_RING_SIZE) :
    (mtk_desc_init cfg a ring).outcome = Outcome.null_dereference := by
  obtain ⟨n, hn'⟩ : ∃ n, cfg.MTK_RING_SIZE = n + 1 := ⟨cfg.MTK_RING_SIZE - 1, by omega⟩
  unfold mtk_desc_init
  simp only [mtk_set_ring, hc, hr, hs, hp, if_false, if_true, ne_eq, not_true_eq_false]
  rw [hn', state_pool_loop_null _ _ _ _ rfl]

/-- C9 at a ring of 512 slots. -/
theorem desc_init_pool_table_unchecked_witness :
    (mtk_desc_init cfg0 allocations_no_pool zeroed_ring).outcome = Outcome.null_dereference :=
  desc_init_pool_table_unchecked cfg0 allocations_no_pool zeroed_ring
    (by decide) (by decide) (by decide) (by decide) (by decide)

/-! ## Further properties -/

/-- With every descriptor of the ring getting both ready bits, the inner loop
never spins, and it leaves a part of the ring it started from. -/
theorem while_ready_no_spin (cfg : Config) :
    ∀ (ready handled : Nat) (l : Locals) (ring : ResultRing),
      (∀ s ∈ ring.rdr, slot_ready s = true) →
      (while_ready cfg ready handled l ring).spinning = false
        ∧ ∀ s ∈ (while_ready cfg ready handled l ring).ring.rdr, s ∈ ring.rdr := by
  intro ready
  induction ready with
  | zero => intro handled l ring _; simp [while_ready]
  | succ r ih =>
    intro handled l ring hr
    simp only [while_ready]
    rcases hring : ring with ⟨rdr, free⟩
    rw [hring] at hr
    rcases rdr with _ | ⟨_ | d, rest⟩
    · simp [mtk_get_descriptor]
    · simp only [mtk_get_descriptor]
      exact ⟨trivial, fun e he => List.mem_cons_of_mem _ he⟩
    · have hd : dma_finished d = true := hr (some d) (by simp)
      simp only [mtk_get_descriptor, hd, if_true]
      by_cases hl : d.userId &&& cfg.MTK_DESC_LAST = 0
      · obtain ⟨h1, h2⟩ := ih (handled + 1) ⟨d.userId, d.arc4Addr, d.errStatus⟩ ⟨rest, free + 1⟩
          (fun e he => hr e (List.mem_cons_of_mem _ he))
        simp only [hl, ne_eq, not_true_eq_false, if_false]
        exact ⟨h1, fun e he => List.mem_cons_of_mem _ (h2 e he)⟩
      · simp only [hl, ne_eq, not_false_eq_true, if_true]
        exact ⟨trivial, fun e he => List.mem_cons_of_mem _ he⟩

/-- X1: the drain returns whenever one of the values read from
`EIP93_REG_PE_RD_COUNT` is 0 in bits 10..0 and every descriptor the ring holds
gets both ready bits. -/
theorem handle_result_returns (cfg : Config) (l : Locals) (reads : List Nat) (ring : ResultRing)
    (h0 : ∃ v ∈ reads, v &&& GENMASK 10 0 = 0)
    (hr : ∀ s ∈ ring.rdr, slot_ready s = true) :
    (mtk_handle_result_descriptor cfg l reads ring).exit = Exit.returned := by
  induction reads generalizing l ring with
  | nil => simp at h0
  | cons v reads ih =>
    simp only [mtk_handle_result_descriptor]
    by_cases hz : v &&& GENMASK 10 0 = 0
    · simp [hz]
    · have h0' : ∃ w ∈ reads, w &&& GENMASK 10 0 = 0 := by
        obtain ⟨w, hw, hw0⟩ := h0
        rcases List.mem_cons.mp hw with rfl | hw'
        · exact absurd hw0 hz
        · exact ⟨w, hw', hw0⟩
      obtain ⟨h1, h2⟩ := while_ready_no_spin cfg (v &&& GENMASK 10 0) 0 l ring hr
      have hi := ih (while_ready cfg (v &&& GENMASK 10 0) 0 l ring).locals
        (while_ready cfg (v &&& GENMASK 10 0) 0 l ring).ring h0' (fun d hd => hr d (h2 d hd))
      simp only [hz, if_false, h1, Bool.false_eq_true]
      split_ifs <;> simpa [Run.after] using hi

/-- X1 on a run with a failed fetch. -/
theorem handle_result_returns_witness :
    (mtk_handle_result_descriptor cfg0 l0 [2, 1, 0] ring_gap).exit = Exit.returned :=
  handle_result_returns cfg0 l0 [2, 1, 0] ring_gap (by decide) (by decide)

/-- X2: the drain never uses a stale value of `flags`, `async` or `err`: what it
does is the same whatever these locals hold on entry. -/
theorem handle_result_ignores_stale_locals (cfg : Config) (l l' : Locals) (reads : List Nat)
    (ring : ResultRing) :
    mtk_handle_result_descriptor cfg l reads ring
      = mtk_handle_result_descriptor cfg l' reads ring :=
  handle_result_locals cfg reads l l' ring

/-- The loop over the state pool, from a pool pointer that is not `NULL`: it
ends, and it has written the entries `i .. i+n-1` of the table. -/
theorem state_pool_loop_spec (off : Nat) :
    ∀ (n i : Nat) (ring : mtk_ring), ring.saState_pool ≠ 0 →
      ∃ pool, state_pool_loop off n i ring = some { ring with pool := pool }
        ∧ pool.length = ring.pool.length
        ∧ ∀ j, pool[j]? =
            if i ≤ j ∧ j < i + n ∧ j < ring.pool.length then
              some ⟨ring.saState + j * off, ring.saState_dma + j * off, false⟩
            else ring.pool[j]? := by
  intro n
  induction n with
  | zero =>
    intro i ring _
    refine ⟨ring.pool, rfl, rfl, fun j => ?_⟩
    have : ¬ (i ≤ j ∧ j < i + 0 ∧ j < ring.pool.length) := by omega
    simp only [this, if_false]
  | succ n ih =>
    intro i ring hp
    obtain ⟨pool, h1, h2, h3⟩ := ih (i + 1)
      { ring with
        pool := ring.pool.set i
          (mtk_state_pool.mk (ring.saState + i * off) (ring.saState_dma + i * off) false) } hp
    refine ⟨pool, ?_, ?_, ?_⟩
    · simp only [state_pool_loop, hp, if_false]
      exact h1
    · simpa using h2
    · intro j
      rw [h3 j]
      simp only [List.length_set, List.getElem?_set]
      by_cases hij : i = j
      · subst hij
        by_cases hlt : i < ring.pool.length
        · simp [hlt]
        · have hn : ring.pool[i]? = none := List.getElem?_eq_none (by omega)
          simp [hlt, hn]
      · by_cases hc : i + 1 ≤ j ∧ j < i + 1 + n ∧ j < ring.pool.length
        · have : i ≤ j ∧ j < i + (n + 1) ∧ j < ring.pool.length := by omega
          simp [hc, this]
        · have : ¬ (i ≤ j ∧ j < i + (n + 1) ∧ j < ring.pool.length) := by omega
          simp [hc, this, hij]

/-- X3: when the four allocations of the ring set-up succeed, `mtk_desc_init`
returns 0 after the three ring-registration writes, with write = read = base
and base_end = base + slotSize * (MTK_RING_SIZE - 1) in both rings, free =
MTK_RING_SIZE - 1, and each of the MTK_RING_SIZE state-pool entries not in use
with base = saState + i * sizeof(saState_s). -/
theorem desc_init_success (cfg : Config) (a : Allocations) (ring : mtk_ring)
    (hc : a.cdr.1 ≠ 0) (hr : a.rdr.1 ≠ 0) (hs : a.saState.1 ≠ 0) (hp : a.saState_pool ≠ 0) :
    ∃ pool,
      mtk_desc_init cfg a ring
          = ⟨Outcome.returns 0,
              { cdr := ⟨cfg.sizeof_eip93_descriptor_s, a.cdr.1, a.cdr.2, a.cdr.1,
                  a.cdr.1 + cfg.sizeof_eip93_descriptor_s * (cfg.MTK_RING_SIZE - 1), a.cdr.1⟩
                rdr := ⟨cfg.sizeof_eip93_descriptor_s, a.rdr.1, a.rdr.2, a.rdr.1,
                  a.rdr.1 + cfg.sizeof_eip93_descriptor_s * (cfg.MTK_RING_SIZE - 1), a.rdr.1⟩
                free := cfg.MTK_RING_SIZE - 1
                saState := a.saState.1
                saState_dma := a.saState.2
                saState_pool := a.saState_pool
                pool := pool },
              [Event.writel (Word.raw (a.cdr.2 % 2 ^ 32)) Reg.EIP93_REG_PE_CDR_BASE,
                Event.writel (Word.raw (a.rdr.2 % 2 ^ 32)) Reg.EIP93_REG_PE_RDR_BASE,
                Event.writel
                  (Word.peRingCfg (cfg.MTK_RING_SIZE - 1) (cfg.sizeof_eip93_descriptor_s / 4))
                  Reg.EIP93_REG_PE_RING_CONFIG]⟩
        ∧ pool.length = cfg.MTK_RING_SIZE
        ∧ ∀ i, i < cfg.MTK_RING_SIZE →
            pool[i]? = some ⟨a.saState.1 + i * cfg.sizeof_saState_s,
              a.saState.2 + i * cfg.sizeof_saState_s, false⟩ := by
  obtain ⟨pool, h1, h2, h3⟩ := state_pool_loop_spec cfg.sizeof_saState_s cfg.MTK_RING_SIZE 0
    { cdr := (mtk_set_ring cfg a.cdr ring.cdr cfg.sizeof_eip93_descriptor_s).2
      rdr := (mtk_set_ring cfg a.rdr ring.rdr cfg.sizeof_eip93_descriptor_s).2
      free := cfg.MTK_RING_SIZE - 1
      saState := a.saState.1
      saState_dma := a.saState.2
      saState_pool := a.saState_pool
      pool := List.replicate cfg.MTK_RING_SIZE ⟨0, 0, false⟩ } hp
  refine ⟨pool, ?_, by simpa using h2, fun i hi => ?_⟩
  · unfold mtk_desc_init
    simp only [mtk_set_ring, hc, hr, hs, hp, if_false, ne_eq, not_true_eq_false] at h1 ⊢
    rw [h1]
  · rw [h3 i]
    simp [hi]

/-- X3 at a ring of 512 slots of 32 bytes. -/
theorem desc_init_success_witness :
    (mtk_desc_init cfg0 allocations_ok zeroed_ring).outcome = Outcome.returns 0
      ∧ (mtk_desc_init cfg0 allocations_ok zeroed_ring).ring.free = 511
      ∧ (mtk_desc_init cfg0 allocations_ok zeroed_ring).ring.cdr.base_end = 0x10000 + 32 * 511 := by
  obtain ⟨pool, h, _, _⟩ := desc_init_success cfg0 allocations_ok zeroed_ring
    (by decide) (by decide) (by decide) (by decide)
  rw [h]
  exact ⟨rfl, rfl, rfl⟩

/-- X4: when one of the three DMA allocations of the ring set-up fails,
`mtk_desc_init` returns `-ENOMEM`, and a probe that got that far returns
`-ENOMEM` without resetting the engine or enabling an interrupt. -/
theorem probe_fails_without_memory (cfg : Config) (pf : Platform)
    (h1 : pf.devm_kzalloc_mtk ≠ 0) (h2 : IS_ERR pf.devm_ioremap_resource = false)
    (h3 : 0 ≤ pf.platform_get_irq) (h4 : pf.devm_kcalloc_ring ≠ 0)
    (ha : pf.allocations.cdr.1 = 0 ∨ pf.allocations.rdr.1 = 0 ∨ pf.allocations.saState.1 = 0) :
    (mtk_desc_init cfg pf.allocations zeroed_ring).outcome = Outcome.returns (- ENOMEM)
      ∧ (mtk_crypto_probe cfg pf).outcome = Outcome.returns (- ENOMEM)
      ∧ (∀ w, (w, Reg.EIP93_REG_PE_CONFIG) ∉ writes (mtk_crypto_probe cfg pf).events)
      ∧ ∀ w, (w, Reg.EIP93_REG_MASK_ENABLE) ∉ writes (mtk_crypto_probe cfg pf).events := by
  have hd : (mtk_desc_init cfg pf.allocations zeroed_ring).outcome = Outcome.returns (- ENOMEM)
      ∧ (∀ w, (w, Reg.EIP93_REG_PE_CONFIG)
          ∉ writes (mtk_desc_init cfg pf.allocations zeroed_ring).events)
      ∧ ∀ w, (w, Reg.EIP93_REG_MASK_ENABLE)
          ∉ writes (mtk_desc_init cfg pf.allocations zeroed_ring).events := by
    unfold mtk_desc_init
    simp only [mtk_set_ring]
    by_cases c1 : pf.allocations.cdr.1 = 0
    · simp [c1, ENOMEM, writes]
    · by_cases c2 : pf.allocations.rdr.1 = 0
      · simp [c1, c2, ENOMEM, writes]
      · have c3 : pf.allocations.saState.1 = 0 := by tauto
        simp [c1, c2, c3, ENOMEM, writes]
  obtain ⟨d1, d2, d3⟩ := hd
  have h3' : ¬ pf.platform_get_irq < 0 := by omega
  have hne : (- ENOMEM) ≠ (0 : Int) := by decide
  have hp : mtk_crypto_probe cfg pf
      = ⟨Outcome.returns (- ENOMEM), (mtk_desc_init cfg pf.allocations zeroed_ring).events⟩ := by
    unfold mtk_crypto_probe
    simp only [h1, h2, h3', h4, if_false, Bool.false_eq_true, d1, hne, ne_eq, not_false_eq_true,
      if_true]
  rw [hp]
  exact ⟨d1, rfl, d2, d3⟩

/-- X4 when the allocation of the result ring fails. -/
theorem probe_fails_without_memory_witness :
    (mtk_crypto_probe cfg0 { platform_ok with
        allocations := ⟨(0x10000, 0x10000), (0, 0), (0x30000, 0x30000), 0x40000⟩ }).outcome
      = Outcome.returns (- ENOMEM) :=
  (probe_fails_without_memory cfg0 { platform_ok with
      allocations := ⟨(0x10000, 0x10000), (0, 0), (0x30000, 0x30000), 0x40000⟩ }
    (by decide) (by decide) (by decide) (by decide) (by decide)).2.1

end Eip93
